import Mathlib

/-!
Shallow embedding of the pyseir core (county_covid_seir_models) in Lean 4,
with theorems settling the frozen claims about its specification.

Source files embedded:
  * `src/pyseir/ensembles/ensemble_runner.py`
  * `src/pyseir/inference/initial_conditions_fitter.py`
  * `src/pyseir/parameters/parameter_ensemble_generator.py`

Conventions:
  * numpy float values are modelled as rationals (`ℚ`); IEEE NaN is modelled
    as `none` in `Option ℚ` where NaN-ness is what matters (missing merge
    data, surge windows that never occur);
  * Python dicts whose key order and overwrite semantics matter are
    modelled as association lists with an insert-or-overwrite operation;
  * Python exceptions are modelled with `Except String`;
  * `np.exp` appears only inside the exponential model of the start-time
    fitter; the fitter embedding is parameterised over the model function
    (and over the `iminuit` optimiser as an abstract argmin oracle), since
    the claims concern which observations enter the loss, not the value of
    the exponential.
-/

namespace PySeir

/-! ## Python dict primitives -/

/-- Python `d[k] = v` on a dict modelled as an association list: overwrite
the value in place if the key is present (keeping insertion order),
otherwise append the new binding at the end. -/
def pyInsert {V : Type} (d : List (String × V)) (k : String) (v : V) :
    List (String × V) :=
  if (d.lookup k).isSome then
    d.map (fun kv => if kv.1 = k then (k, v) else kv)
  else d ++ [(k, v)]

/-- Python `d1.update(d2)`: insert every binding of `d2` into `d1` in order. -/
def pyUpdate {V : Type} (d1 d2 : List (String × V)) : List (String × V) :=
  d2.foldl (fun acc kv => pyInsert acc kv.1 kv.2) d1

/-- Python `sub in s` on strings is a substring test (used by the source's
`key not in ('t_list')`, where `('t_list')` is the *string* `'t_list'`). -/
def pyStrContains (s sub : List Char) : Bool :=
  (List.range (s.length + 1)).any (fun i => (s.drop i).take sub.length == sub)

/-! ## numpy primitives -/

/-- `np.argmax` / first index of the maximum value of a nonempty list
(numpy returns the first maximal index). Returns 0 on the empty list. -/
def idxOfMax (xs : List ℚ) : ℕ :=
  (xs.zip (List.range xs.length)).foldl
    (fun best cur => if cur.1 > best.1 then cur else best)
    (xs.headD 0, 0) |>.2

/-- `np.argmin` / first index of the minimum value of a nonempty list. -/
def idxOfMin (xs : List ℚ) : ℕ :=
  (xs.zip (List.range xs.length)).foldl
    (fun best cur => if cur.1 < best.1 then cur else best)
    (xs.headD 0, 0) |>.2

/-- `np.mean` of a list of rationals. -/
def npMean (xs : List ℚ) : ℚ := xs.sum / xs.length

/-- Linear interpolation step of `np.percentile` on an already sorted
vector `s` at fractional index `h`: with `l = ⌊h⌋`, the value is
`s[l] + (h − l) * (s[l+1] − s[l])`, clamping the `l+1` access to `s[l]`
when it falls off the end (which only happens when `h − l = 0`). -/
def interpSorted (s : List ℚ) (h : ℚ) : ℚ :=
  s.getD ⌊h⌋.toNat 0 + (h - (⌊h⌋.toNat : ℚ)) *
    (s.getD (⌊h⌋.toNat + 1) (s.getD ⌊h⌋.toNat 0) - s.getD ⌊h⌋.toNat 0)

/-- `np.percentile(xs, p)` with the default linear interpolation: sort the
data and interpolate at virtual index `(n − 1) * p / 100`. -/
def npPercentile (xs : List ℚ) (p : ℚ) : ℚ :=
  interpSorted (xs.insertionSort (· ≤ ·)) (((xs.length : ℚ) - 1) * p / 100)

/-! ## `src/pyseir/inference/initial_conditions_fitter.py` -/

namespace Fitter

/-- The chi-square terms of `InitialConditionsFitter._reduced_chi2`:
`chi2 = (y_pred[y > 0] - y[y > 0]) ** 2 / y[y > 0]` — one term per
observation with strictly positive observed count. -/
def chi2Terms (y_pred y : List ℚ) : List ℚ :=
  (y_pred.zip y).filterMap
    (fun ab => if 0 < ab.2 then some ((ab.1 - ab.2) ^ 2 / ab.2) else none)

/-- The denominator `len(chi2) - 1` of `_reduced_chi2`, as an integer. -/
def reducedChi2Denom (y_pred y : List ℚ) : ℤ :=
  (chi2Terms y_pred y).length - 1

/-- `InitialConditionsFitter._reduced_chi2`:
`np.sum(chi2) / (len(chi2) - 1)`. -/
def reduced_chi2 (y_pred y : List ℚ) : ℚ :=
  (chi2Terms y_pred y).sum / ((reducedChi2Denom y_pred y : ℚ))

/-- The fitted exponential-model parameters `(norm, t0, scale)`. -/
structure Params where
  norm : ℚ
  t0 : ℚ
  scale : ℚ
deriving DecidableEq, Repr

/-- The per-region fitter state loaded by `InitialConditionsFitter.__init__`:
`self.t` (days since first observation) and `self.y` (case counts), plus the
windowing configuration. -/
structure FitterState where
  t : List ℚ
  y : List ℚ
  t0_case_count : ℚ
  start_days_before_t0 : ℕ
  start_days_after_t0 : ℕ
deriving Repr

/-- `InitialConditionsFitter.exponential_loss(self, norm, t0, scale)`:
the reduced chi-square of the model predictions on `self.t` against
`self.y` — always the FULL loaded series, whatever data a caller meant to
fit. `f` abstracts `exponential_model` (`norm * np.exp((t - t0)/scale)`),
whose transcendental value is irrelevant to the claims. -/
def exponential_loss (f : Params → ℚ → ℚ) (st : FitterState) (p : Params) : ℚ :=
  reduced_chi2 (st.t.map (f p)) st.y

/-- `InitialConditionsFitter.fit_county_initial_conditions(self, t, y)`:
builds an `iminuit.Minuit` optimiser over `self.exponential_loss` and
returns the fitted parameter values. `opt` abstracts the `migrad`
minimisation: it receives the objective being minimised and returns the
parameters. The arguments `t` and `y` appear in the source signature but
are never read — the objective closes over `self.t`/`self.y` only. -/
def fit_county_initial_conditions (f : Params → ℚ → ℚ)
    (opt : (Params → ℚ) → Params) (st : FitterState)
    (t y : List ℚ) : Params :=
  opt (exponential_loss f st)

/-- The loss the spec intends for the `Fitted` stage: the same reduced
chi-square, but evaluated over only the windowed observations `(t, y)`.
Used to compare the source's refit objective against the spec's words. -/
def windowedLoss (f : Params → ℚ → ℚ) (t y : List ℚ) (p : Params) : ℚ :=
  reduced_chi2 (t.map (f p)) y

/-- The result fields set by `InitialConditionsFitter.fit`. -/
structure FitOutput where
  model_params : Params
  fit_predictions : List ℚ
  reduced_chi2 : ℚ
  t0_idx : ℕ
  t0 : ℚ
deriving Repr

/-- The windowed observation subset selected by `InitialConditionsFitter.fit`
(lines 116–121): the slice `[max(0, t0_idx - before) : min(len, t0_idx + after)]`
of the full series around the coarse fit's threshold-crossing index. -/
def windowSlice (st : FitterState) (t0_idx : ℕ) : List ℚ × List ℚ :=
  let filter_start := t0_idx - st.start_days_before_t0
  let filter_end := min st.t.length (t0_idx + st.start_days_after_t0)
  ((st.t.drop filter_start).take (filter_end - filter_start),
   (st.y.drop filter_start).take (filter_end - filter_start))

/-- `InitialConditionsFitter.fit`: coarse fit on all data, locate the
timestep whose prediction is nearest `t0_case_count`, slice a window
around it, refit, and recompute the reduced chi-square, threshold index
and `t0` from the refit predictions over the full series. -/
def fit (f : Params → ℚ → ℚ) (opt : (Params → ℚ) → Params)
    (st : FitterState) : FitOutput :=
  let model_params0 := fit_county_initial_conditions f opt st st.t st.y
  let fit_predictions0 := st.t.map (f model_params0)
  let t0_idx := idxOfMin (fit_predictions0.map (fun v => |v - st.t0_case_count|))
  let w := windowSlice st t0_idx
  let model_params := fit_county_initial_conditions f opt st w.1 w.2
  let fit_predictions := st.t.map (f model_params)
  let red_chi2 := exponential_loss f st model_params
  let t0_idx2 := idxOfMin (fit_predictions.map (fun v => |v - st.t0_case_count|))
  { model_params := model_params
    fit_predictions := fit_predictions
    reduced_chi2 := red_chi2
    t0_idx := t0_idx2
    t0 := st.t.getD t0_idx2 0 }

/-- One case observation as loaded for a region. Modelled from the spec:
the case-observation lookup (`load_data.load_county_case_data`, not under
`src/`) yields an "ordered (date, cumulative-case-count) sequence" for
the region — one row per observation day, so the row count of
`self.cases` is the number of distinct observation days. -/
structure CaseRow where
  dayOffset : ℚ
  count : ℚ
  county : String
  state : String
deriving Repr

/-- `InitialConditionsFitter.__init__`: raises `ValueError` when the region
has fewer than `min_days_required` observations, otherwise loads the state
(`self.t`, `self.y`, county/state labels; an empty table would also fail on
`self.cases.county.values[0]`, modelled as an `IndexError`). -/
def fitterInit (cases : List CaseRow) (t0_case_count : ℚ)
    (start_days_before_t0 start_days_after_t0 min_days_required : ℕ) :
    Except String FitterState :=
  if cases.length < min_days_required then
    .error "ValueError: Only few observations for county. Cannot fit."
  else
    match cases with
    | [] => .error "IndexError"
    | _ :: _ =>
        .ok { t := cases.map (·.dayOffset)
              y := cases.map (·.count)
              t0_case_count := t0_case_count
              start_days_before_t0 := start_days_before_t0
              start_days_after_t0 := start_days_after_t0 }

end Fitter

/-! ## `src/pyseir/ensembles/ensemble_runner.py` -/

namespace Runner

/-- `compartment_to_capacity_attr_map` from the source. -/
def compartment_to_capacity_attr_map : List (String × String) :=
  [("HGen", "beds_general"), ("HICU", "beds_ICU"), ("HVent", "ventilators")]

/-- One executed `SEIRModel` as the ensemble runner reads it: the
`results` dict of compartment series, the time grid `t_list`, and the
three capacity attributes consulted via `getattr`. -/
structure PyModel where
  results : List (String × List ℚ)
  t_list : List ℚ
  beds_general : ℚ
  beds_ICU : ℚ
  ventilators : ℚ
deriving Repr, Inhabited

/-- `getattr(m, attr)` for the three capacity attributes named in
`compartment_to_capacity_attr_map` (the only attributes the runner reads). -/
def getCapacityAttr (m : PyModel) (attr : String) : ℚ :=
  if attr = "beds_general" then m.beds_general
  else if attr = "beds_ICU" then m.beds_ICU
  else if attr = "ventilators" then m.ventilators
  else 0

/-- The surge window of one run: `np.argwhere(series > capacity)` picks the
indices of exceedance; `[0][0]` of that is the first one, mapped through
`t_list`; the surge end does the same on the reversed series and reversed
time grid. `none` models the `float('NaN')` of the no-exceedance branch. -/
def surgeWindowOne (series t_list : List ℚ) (capacity : ℚ) :
    Option ℚ × Option ℚ :=
  ((series.findIdx? (fun v => capacity < v)).map (fun i => t_list.getD i 0),
   (series.reverse.findIdx? (fun v => capacity < v)).map
     (fun j => t_list.reverse.getD j 0))

/-- `EnsembleRunner._get_surge_window(model_ensemble, compartment)`:
per-model surge start and end lists for one capacity-bound compartment. -/
def get_surge_window (model_ensemble : List PyModel) (compartment : String) :
    List (Option ℚ) × List (Option ℚ) :=
  let attr := (compartment_to_capacity_attr_map.lookup compartment).getD ""
  let windows := model_ensemble.map (fun m =>
    surgeWindowOne ((m.results.lookup compartment).getD []) m.t_list
      (getCapacityAttr m attr))
  (windows.map Prod.fst, windows.map Prod.snd)

/-- `np.vstack` on a list of 1-D rows: succeeds iff all rows share the
first row's length, else raises `ValueError`; `np.vstack([])` raises. -/
def npVstack (rows : List (List ℚ)) : Except String (List (List ℚ)) :=
  match rows with
  | [] => .error "ValueError: need at least one array"
  | r :: rs =>
      if rs.all (fun x => x.length == r.length) then .ok (r :: rs)
      else .error "ValueError: all input array dimensions must match"

/-- The compartment keys taken from the first model:
`[key for key in model_ensemble[0].results if key not in ('t_list')]` —
note `('t_list')` is the string `'t_list'`, so the Python `in` is a
substring test. -/
def filteredKeys (m : PyModel) : List String :=
  (m.results.map Prod.fst).filter
    (fun k => !(pyStrContains "t_list".data k.data))

/-- `model.results[key]`: raises `KeyError` when the key is absent. -/
def lookupCompartment (key : String) (m : PyModel) : Except String (List ℚ) :=
  match m.results.lookup key with
  | some s => .ok s
  | none => .error "KeyError"

/-- One iteration of `_generate_compartment_arrays`' aggregation for a
single compartment key: collect `model.results[key]` from every model and
`np.vstack` the rows. -/
def stackCompartment (model_ensemble : List PyModel) (key : String) :
    Except String (String × List (List ℚ)) :=
  match model_ensemble.mapM (lookupCompartment key) with
  | .error e => .error e
  | .ok rows =>
      match npVstack rows with
      | .error e => .error e
      | .ok stacked => .ok (key, stacked)

/-- `EnsembleRunner._generate_compartment_arrays(model_ensemble)`: for each
compartment key of the first model, collect `model.results[key]` from every
model (a missing key raises `KeyError`) and `np.vstack` the rows
(inconsistent lengths raise `ValueError`); an empty ensemble fails on
`model_ensemble[0]`. -/
def generate_compartment_arrays (model_ensemble : List PyModel) :
    Except String (List (String × List (List ℚ))) :=
  match model_ensemble with
  | [] => .error "IndexError: list index out of range"
  | m0 :: _ => (filteredKeys m0).mapM (stackCompartment model_ensemble)

/-- `np.percentile(value_stack, percentile, axis=0)`: the column-wise
percentile of the runs×timesteps stack — at each timestep index the
percentile is taken over that column of run values. -/
def percentileAxis0 (value_stack : List (List ℚ)) (p : ℚ) : List ℚ :=
  (List.range (value_stack.headD []).length).map
    (fun j => npPercentile (value_stack.map (fun row => row.getD j 0)) p)

/-- A value stored in an output dict of the ensemble runner. -/
inductive PyVal where
  | num (x : ℚ)
  | series (xs : List ℚ)
  | optSeries (xs : List (Option ℚ))
deriving DecidableEq, Repr

/-- `EnsembleRunner._detect_peak_time_and_value(value_stack, t_list)`:
per-run argmax gives peak times and peak values; percentiles across runs
of each are emitted under `peak_value_ci<p>` / `peak_time_ci<p>`, plus
`peak_value_mean`. -/
def detect_peak_time_and_value (output_percentiles : List ℕ)
    (value_stack : List (List ℚ)) (t_list : List ℚ) :
    List (String × PyVal) :=
  let peak_indices := value_stack.map idxOfMax
  let peak_times := peak_indices.map (fun i => t_list.getD i 0)
  let values_at_peak_index := value_stack.map (fun row => row.getD (idxOfMax row) 0)
  let peak_data := output_percentiles.foldl (fun d p =>
    pyInsert
      (pyInsert d ("peak_value_ci" ++ toString p)
        (PyVal.num (npPercentile values_at_peak_index (p : ℚ))))
      ("peak_time_ci" ++ toString p)
      (PyVal.num (npPercentile peak_times (p : ℚ)))) []
  pyInsert peak_data "peak_value_mean" (PyVal.num (npMean values_at_peak_index))

/-- The entry `outputs[compartment]` assembled by
`EnsembleRunner._generate_output_for_suppression_policy` for one
compartment: first the `ci_<p>` percentile bands, then — via
`outputs[compartment].update(compartment_output)` — the capacity block and
the peak statistics. The capacity block replays the source's line 247
verbatim: the tuple returned by `_get_surge_window` is unpacked into
`compartment_output['surge_start']` TWICE (both targets name
`'surge_start'`), then `'capacity'` is set. -/
def compartmentOutput (output_percentiles : List ℕ)
    (model_ensemble : List PyModel) (compartment : String)
    (value_stack : List (List ℚ)) : List (String × PyVal) :=
  let ciPart : List (String × PyVal) := output_percentiles.foldl (fun d p =>
    pyInsert d ("ci_" ++ toString p)
      (PyVal.series (percentileAxis0 value_stack (p : ℚ)))) []
  let compartment_output : List (String × PyVal) :=
    if (compartment_to_capacity_attr_map.lookup compartment).isSome then
      let w := get_surge_window model_ensemble compartment
      let d1 := pyInsert [] "surge_start" (PyVal.optSeries w.1)
      let d2 := pyInsert d1 "surge_start" (PyVal.optSeries w.2)
      pyInsert d2 "capacity"
        (PyVal.series (model_ensemble.map (fun m =>
          getCapacityAttr m
            ((compartment_to_capacity_attr_map.lookup compartment).getD ""))))
    else []
  let compartment_output := pyUpdate compartment_output
    (detect_peak_time_and_value output_percentiles value_stack
      ((model_ensemble.headD default).t_list))
  pyUpdate ciPart compartment_output

end Runner

/-! ## `src/pyseir/parameters/parameter_ensemble_generator.py` -/

namespace ParamGen

/-- IEEE NaN-propagating arithmetic on `Option ℚ` (none = NaN). -/
def naAdd : Option ℚ → Option ℚ → Option ℚ
  | some a, some b => some (a + b)
  | _, _ => none

/-- NaN-propagating subtraction. -/
def naSub : Option ℚ → Option ℚ → Option ℚ
  | some a, some b => some (a - b)
  | _, _ => none

/-- NaN-propagating multiplication (`NaN * x = NaN` for every float `x`). -/
def naMul : Option ℚ → Option ℚ → Option ℚ
  | some a, some b => some (a * b)
  | _, _ => none

/-- The summed per-fips hospital row selected in
`ParameterEnsembleGenerator.__init__`. -/
structure HospitalRow where
  num_licensed_beds : ℚ
  num_staffed_beds : ℚ
  num_icu_beds : ℚ
  bed_utilization : ℚ
  potential_increase_in_bed_capac : ℚ
deriving Repr

/-- `county_metadata.merge(hospital_bed_data, on='fips', how='left')
.set_index('fips').loc[fips].to_dict()` for one county: a left merge always
creates every hospital column in the result, holding NaN (`none`) when the
county's fips is absent from the hospital table. The resulting Python dict
therefore always CONTAINS the hospital keys. -/
def countyMetadataMerged (total_population : ℚ) (hosp : Option HospitalRow) :
    List (String × Option ℚ) :=
  [("total_population", some total_population),
   ("num_licensed_beds", hosp.map (·.num_licensed_beds)),
   ("num_staffed_beds", hosp.map (·.num_staffed_beds)),
   ("num_icu_beds", hosp.map (·.num_icu_beds)),
   ("bed_utilization", hosp.map (·.bed_utilization)),
   ("potential_increase_in_bed_capac",
     hosp.map (·.potential_increase_in_bed_capac))]

/-- Python `d.get(key, default)`: the stored value when the key is present
(even when that value is NaN), else the default. -/
def pyGet (d : List (String × Option ℚ)) (key : String) (dflt : ℚ) :
    Option ℚ :=
  (d.lookup key).getD (some dflt)

/-- The county capacity constants of one sampled parameter set
(`sample_seir_parameters`, lines 113–127): `beds_general` is
`d.get('num_licensed_beds', 0) - d.get('bed_utilization', 0) +
d.get('potential_increase_in_bed_capac', 0)`; `beds_ICU` is
`d.get('num_icu_beds', 0)`; `ventilators` multiplies the ICU bed count by
the sampled `np.random.uniform(1.0, 1.2)` draw `ventMult`. -/
structure CapacityConstants where
  beds_general : Option ℚ
  beds_ICU : Option ℚ
  ventilators : Option ℚ
deriving DecidableEq, Repr

/-- The capacity-constant fields of one draw of `sample_seir_parameters`. -/
def sampledCapacityConstants (d : List (String × Option ℚ)) (ventMult : ℚ) :
    CapacityConstants :=
  { beds_general :=
      naAdd (naSub (pyGet d "num_licensed_beds" 0) (pyGet d "bed_utilization" 0))
        (pyGet d "potential_increase_in_bed_capac" 0)
    beds_ICU := pyGet d "num_icu_beds" 0
    ventilators := naMul (pyGet d "num_icu_beds" 0) (some ventMult) }

end ParamGen

/-! ## Imputation-table fragment of `generate_start_times_for_state` -/

namespace Impute

/-- One row of the merged per-county table built by
`generate_start_times_for_state`: the fit summary when
`InitialConditionsFitter` succeeded for the county (`model_params` and
`t0_date` non-null), `none` when it raised and the row was recorded as
`{'model_params': None, 't0_date': None, 'reduced_chi2': None}`. -/
structure FitRow where
  fips : String
  fit : Option Fitter.Params
deriving DecidableEq, Repr

/-- The reporting columns added at lines 227–229 of the source: a county is
in `samples_with_data` iff its `days_from_2020_01_01` (hence its `t0_date`,
hence its fit) is non-null, so `imputed_start_time` is set exactly on the
fit-less rows, and `doubling_rate_days = np.log(2) * model_params['scale']`
is assigned only on the `samples_with_data` mask — the imputed rows keep
NaN (`none`) there. `ln2` abstracts the float constant `np.log(2)`. -/
structure ImputedRow where
  fips : String
  imputed_start_time : Bool
  doubling_rate_days : Option ℚ
deriving DecidableEq, Repr

/-- The imputation table's reporting columns, one output row per county. -/
def buildImputationRows (ln2 : ℚ) (rows : List FitRow) : List ImputedRow :=
  rows.map (fun r =>
    { fips := r.fips
      imputed_start_time := r.fit.isNone
      doubling_rate_days := r.fit.map (fun f => ln2 * f.scale) })

end Impute

/-! ## Concrete instances used by the claim theorems -/

/-- A single executed model whose `HGen` series `[1, 3, 3]` exceeds its
general-bed capacity `2` from time `1` through time `2`: its surge-start
is `1` and its surge-end is `2`, so the two are distinguishable. -/
def c1Model : Runner.PyModel where
  results := [("HGen", [1, 3, 3])]
  t_list := [0, 1, 2]
  beds_general := 2
  beds_ICU := 0
  ventilators := 0

/-- The output entry the runner produces for compartment `HGen` of the
single-run ensemble `[c1Model]` at output percentile 50. -/
def c1Out : List (String × Runner.PyVal) :=
  Runner.compartmentOutput [50] [c1Model] "HGen" [[1, 3, 3]]

/-- A fitter state with observations `t = [0, 1, 2]`, `y = [1, 2, 4]` and a
window of 0 days before / 1000 days after the threshold crossing. -/
def c2State : Fitter.FitterState where
  t := [0, 1, 2]
  y := [1, 2, 4]
  t0_case_count := 1
  start_days_before_t0 := 0
  start_days_after_t0 := 1000

/-- A degenerate stand-in for `exponential_model` (identically zero), under
which the fitting losses are exactly computable. -/
def c2Model : Fitter.Params → ℚ → ℚ := fun _ _ => 0

/-- A concrete parameter point at which the two losses are compared. -/
def c2Params : Fitter.Params where
  norm := 1
  t0 := 0
  scale := 1

/-- A model run whose results hold only compartment `A`. -/
def c8Run0 : Runner.PyModel where
  results := [("A", [1, 2])]
  t_list := []
  beds_general := 0
  beds_ICU := 0
  ventilators := 0

/-- A model run whose key set strictly contains `c8Run0`'s: it has the
extra compartment `B`. -/
def c8Run1 : Runner.PyModel where
  results := [("A", [3, 4]), ("B", [5, 6])]
  t_list := []
  beds_general := 0
  beds_ICU := 0
  ventilators := 0

/-! ## Lemmas about the numpy percentile embedding -/

lemma getD_in {α : Type} [Inhabited α] (l : List α) (d : α) {i : ℕ}
    (h : i < l.length) : l.getD i d = l[i] := by
  simp [List.getD_eq_getElem?_getD, List.getElem?_eq_getElem h]

lemma getD_out {α : Type} [Inhabited α] (l : List α) (d : α) {i : ℕ}
    (h : l.length ≤ i) : l.getD i d = d := by
  simp [List.getD_eq_getElem?_getD, List.getElem?_eq_none h]

lemma sorted_getD_mono {s : List ℚ} (hs : s.Sorted (· ≤ ·)) {a b : ℕ}
    (hab : a ≤ b) (hb : b < s.length) : s.getD a 0 ≤ s.getD b 0 := by
  have ha : a < s.length := lt_of_le_of_lt hab hb
  rw [getD_in _ _ ha, getD_in _ _ hb]
  rcases eq_or_lt_of_le hab with rfl | hlt
  · exact le_refl _
  · have := hs.rel_get_of_lt (a := ⟨a, ha⟩) (b := ⟨b, hb⟩) hlt
    simpa using this

lemma interpSorted_le_of_le {s : List ℚ} (hs : s.Sorted (· ≤ ·))
    {h1 h2 : ℚ} (h0 : 0 ≤ h1) (h12 : h1 ≤ h2)
    (hup : h2 ≤ (s.length : ℚ) - 1) :
    interpSorted s h1 ≤ interpSorted s h2 := by
  have h02 : 0 ≤ h2 := le_trans h0 h12
  have hn1 : 1 ≤ s.length := by
    rcases Nat.eq_zero_or_pos s.length with hz | hp
    · rw [hz] at hup; norm_num at hup; linarith
    · exact hp
  have hf1 : (0 : ℤ) ≤ ⌊h1⌋ := Int.floor_nonneg.mpr h0
  have hf2 : (0 : ℤ) ≤ ⌊h2⌋ := Int.floor_nonneg.mpr h02
  have hc1q : ((⌊h1⌋.toNat : ℚ)) = ((⌊h1⌋ : ℤ) : ℚ) := by
    exact_mod_cast congrArg (Int.cast : ℤ → ℚ) (Int.toNat_of_nonneg hf1)
  have hc2q : ((⌊h2⌋.toNat : ℚ)) = ((⌊h2⌋ : ℤ) : ℚ) := by
    exact_mod_cast congrArg (Int.cast : ℤ → ℚ) (Int.toNat_of_nonneg hf2)
  have hl1_le : ((⌊h1⌋.toNat : ℚ)) ≤ h1 := by rw [hc1q]; exact Int.floor_le h1
  have hl2_le : ((⌊h2⌋.toNat : ℚ)) ≤ h2 := by rw [hc2q]; exact Int.floor_le h2
  have h1_lt : h1 < ((⌊h1⌋.toNat : ℚ)) + 1 := by
    rw [hc1q]; exact_mod_cast Int.lt_floor_add_one h1
  have hl12 : ⌊h1⌋.toNat ≤ ⌊h2⌋.toNat := Int.toNat_le_toNat (Int.floor_mono h12)
  have hl2n : ⌊h2⌋.toNat ≤ s.length - 1 := by
    have hfle : ⌊h2⌋ ≤ (s.length : ℤ) - 1 := by
      calc ⌊h2⌋ ≤ ⌊((s.length : ℚ) - 1)⌋ := Int.floor_mono hup
        _ = (s.length : ℤ) - 1 := by
            rw [show ((s.length : ℚ) - 1) = (((s.length : ℤ) - 1 : ℤ) : ℚ) by
              push_cast; ring]
            exact Int.floor_intCast _
    have := Int.toNat_le_toNat hfle
    omega
  have hl2lt : ⌊h2⌋.toNat < s.length := by omega
  have slope_nonneg : ∀ l : ℕ,
      0 ≤ s.getD (l + 1) (s.getD l 0) - s.getD l 0 := by
    intro l
    by_cases hin : l + 1 < s.length
    · rw [getD_in _ _ hin]
      have := sorted_getD_mono hs (Nat.le_succ l) hin
      rw [getD_in _ _ hin] at this
      linarith
    · rw [getD_out _ _ (by omega)]; linarith
  unfold interpSorted
  rcases eq_or_lt_of_le hl12 with heq | hlt
  · -- same interpolation cell: the map is affine with nonnegative slope
    rw [← heq]
    have hdiff := slope_nonneg ⌊h1⌋.toNat
    have hfr : h1 - (⌊h1⌋.toNat : ℚ) ≤ h2 - (⌊h1⌋.toNat : ℚ) := by linarith
    have := mul_le_mul_of_nonneg_right hfr hdiff
    linarith
  · -- different cells: pass through the sorted entries between them
    have hl1n : ⌊h1⌋.toNat + 1 < s.length := by omega
    have hb1 : s.getD (⌊h1⌋.toNat + 1) (s.getD ⌊h1⌋.toNat 0) =
        s.getD (⌊h1⌋.toNat + 1) 0 := by
      rw [getD_in _ _ hl1n, getD_in _ _ hl1n]
    have hdiff1 : 0 ≤ s.getD (⌊h1⌋.toNat + 1) 0 - s.getD ⌊h1⌋.toNat 0 := by
      have := slope_nonneg ⌊h1⌋.toNat
      rw [hb1] at this
      linarith
    have hstep1 : s.getD ⌊h1⌋.toNat 0 + (h1 - (⌊h1⌋.toNat : ℚ)) *
        (s.getD (⌊h1⌋.toNat + 1) (s.getD ⌊h1⌋.toNat 0) - s.getD ⌊h1⌋.toNat 0) ≤
        s.getD (⌊h1⌋.toNat + 1) 0 := by
      rw [hb1]
      have hfr1 : h1 - (⌊h1⌋.toNat : ℚ) ≤ 1 := by linarith
      have := mul_le_mul_of_nonneg_right hfr1 hdiff1
      linarith
    have hstep2 : s.getD (⌊h1⌋.toNat + 1) 0 ≤ s.getD ⌊h2⌋.toNat 0 :=
      sorted_getD_mono hs (by omega) hl2lt
    have hdiff2 := slope_nonneg ⌊h2⌋.toNat
    have hstep3 : s.getD ⌊h2⌋.toNat 0 ≤ s.getD ⌊h2⌋.toNat 0 +
        (h2 - (⌊h2⌋.toNat : ℚ)) *
        (s.getD (⌊h2⌋.toNat + 1) (s.getD ⌊h2⌋.toNat 0) - s.getD ⌊h2⌋.toNat 0) := by
      have hfr2 : 0 ≤ h2 - (⌊h2⌋.toNat : ℚ) := by linarith
      have := mul_nonneg hfr2 hdiff2
      linarith
    linarith

lemma npPercentile_mono {xs : List ℚ} (hne : xs ≠ []) {p q : ℚ}
    (hp : 0 ≤ p) (hpq : p ≤ q) (hq : q ≤ 100) :
    npPercentile xs p ≤ npPercentile xs q := by
  have hlen : (xs.insertionSort (· ≤ ·)).length = xs.length :=
    List.length_insertionSort _ _
  have hn1 : 1 ≤ xs.length := List.length_pos.mpr hne
  have hn1q : (0 : ℚ) ≤ (xs.length : ℚ) - 1 := by
    have : (1 : ℚ) ≤ (xs.length : ℚ) := by exact_mod_cast hn1
    linarith
  unfold npPercentile
  apply interpSorted_le_of_le (List.sorted_insertionSort _ xs)
  · positivity
  · apply div_le_div_of_nonneg_right ?_ (by norm_num)
    · exact mul_le_mul_of_nonneg_left hpq hn1q
  · rw [hlen]
    calc ((xs.length : ℚ) - 1) * q / 100 ≤ ((xs.length : ℚ) - 1) * 100 / 100 := by
          apply div_le_div_of_nonneg_right ?_ (by norm_num)
          exact mul_le_mul_of_nonneg_left hq hn1q
      _ = (xs.length : ℚ) - 1 := by ring

lemma npPercentile_singleton (x p : ℚ) : npPercentile [x] p = x := by
  unfold npPercentile interpSorted
  norm_num [List.insertionSort]

lemma map_getD_range (l : List ℚ) :
    (List.range l.length).map (fun j => l.getD j 0) = l := by
  apply List.ext_getElem
  · simp
  · intro i h1 h2
    simp only [List.getElem_map, List.getElem_range]
    exact getD_in _ _ h2

lemma getD_map_range (n : ℕ) (f : ℕ → ℚ) (j : ℕ) :
    ((List.range n).map f).getD j 0 = if j < n then f j else 0 := by
  by_cases h : j < n
  · rw [if_pos h, getD_in _ _ (by simpa using h)]
    simp
  · rw [if_neg h, getD_out _ _ (by simpa using not_lt.mp h)]

/-! ## Lemmas about the chi-square term list -/

lemma chi2Terms_cons (a b : ℚ) (as bs : List ℚ) :
    Fitter.chi2Terms (a :: as) (b :: bs) =
      if 0 < b then ((a - b) ^ 2 / b) :: Fitter.chi2Terms as bs
      else Fitter.chi2Terms as bs := by
  by_cases hb : 0 < b <;> simp [Fitter.chi2Terms, hb]

lemma chi2Terms_length {y_pred y : List ℚ} (h : y_pred.length = y.length) :
    (Fitter.chi2Terms y_pred y).length =
      (y.filter (fun v => decide (0 < v))).length := by
  induction y_pred generalizing y with
  | nil =>
    have hy : y = [] := List.length_eq_zero.mp h.symm
    subst hy; rfl
  | cons a as ih =>
    cases y with
    | nil => simp at h
    | cons b bs =>
      have h' : as.length = bs.length := by simpa using h
      rw [chi2Terms_cons]
      by_cases hb : 0 < b
      · rw [if_pos hb]; simp [List.filter_cons, hb, ih h']
      · rw [if_neg hb]; simp [List.filter_cons, hb, ih h']

/-! ## Lemmas about `mapM` over `Except` -/

lemma mapM_except_error_of_mem {α β : Type} (g : α → Except String β)
    {l : List α} {a : α} (ha : a ∈ l) {e : String} (hg : g a = .error e) :
    ∃ e', l.mapM g = .error e' := by
  induction l with
  | nil => cases ha
  | cons x xs ih =>
    rw [List.mapM_cons]
    rcases List.mem_cons.mp ha with rfl | hmem
    · exact ⟨e, by rw [hg]; rfl⟩
    · cases hx : g x with
      | error e2 => exact ⟨e2, rfl⟩
      | ok b =>
        obtain ⟨e', he'⟩ := ih hmem
        exact ⟨e', by rw [he']; rfl⟩

lemma mapM_except_ok_map {α β : Type} (g : α → Except String β) (v : α → β)
    {l : List α} (h : ∀ a ∈ l, g a = .ok (v a)) :
    l.mapM g = .ok (l.map v) := by
  induction l with
  | nil => rfl
  | cons x xs ih =>
    rw [List.mapM_cons, h x (List.mem_cons_self x xs),
      ih (fun a ha => h a (List.mem_cons_of_mem _ ha))]
    rfl

/-! ## Claim theorems -/

/-- C10: `_reduced_chi2` divides the summed chi-square by
(number of strictly positive observed counts − 1); with exactly one
strictly positive observed count the denominator is zero, with none it is
negative, and a (finite, well-defined) positive denominator requires at
least two strictly positive observed counts. -/
theorem C10_reduced_chi2_denominator (y_pred y : List ℚ)
    (hlen : y_pred.length = y.length) :
    Fitter.reducedChi2Denom y_pred y =
        ((y.filter (fun v => decide (0 < v))).length : ℤ) - 1
  ∧ ((y.filter (fun v => decide (0 < v))).length = 1 →
        Fitter.reducedChi2Denom y_pred y = 0)
  ∧ ((y.filter (fun v => decide (0 < v))).length = 0 →
        Fitter.reducedChi2Denom y_pred y < 0)
  ∧ (0 < Fitter.reducedChi2Denom y_pred y ↔
        2 ≤ (y.filter (fun v => decide (0 < v))).length) := by
  have hk : Fitter.reducedChi2Denom y_pred y =
      ((y.filter (fun v => decide (0 < v))).length : ℤ) - 1 := by
    rw [Fitter.reducedChi2Denom, chi2Terms_length hlen]
  refine ⟨hk, ?_, ?_, ?_⟩
  · intro h1; rw [hk, h1]; rfl
  · intro h0; rw [hk, h0]; norm_num
  · rw [hk]; omega

/-- Witness for C10 at a concrete input with exactly one positive count. -/
theorem C10_reduced_chi2_denominator_witness :
    Fitter.reducedChi2Denom [1, 2, 3] [0, 5, 0] = 0 :=
  (C10_reduced_chi2_denominator [1, 2, 3] [0, 5, 0] rfl).2.1
    (by with_unfolding_all rfl)

/-- C9: in the combined imputation table, every non-imputed row (one whose
start time came from a real fit) carries `doubling_rate_days = ln 2 ×` the
fitted growth timescale (`scale`), and every imputed row carries no
doubling-time value. -/
theorem C9_doubling_time_only_for_real_fits (ln2 : ℚ)
    (rows : List Impute.FitRow) (ir : Impute.ImputedRow)
    (hmem : ir ∈ Impute.buildImputationRows ln2 rows) :
    (ir.imputed_start_time = false →
        ∃ fr ∈ rows, fr.fips = ir.fips ∧ ∃ p, fr.fit = some p ∧
          ir.doubling_rate_days = some (ln2 * p.scale))
  ∧ (ir.imputed_start_time = true → ir.doubling_rate_days = none) := by
  unfold Impute.buildImputationRows at hmem
  rcases List.mem_map.mp hmem with ⟨fr, hfr, rfl⟩
  constructor
  · intro hflag
    cases hfit : fr.fit with
    | none => rw [hfit] at hflag; simp at hflag
    | some p => exact ⟨fr, hfr, rfl, p, hfit, by simp [hfit]⟩
  · intro hflag
    cases hfit : fr.fit with
    | none => simp [hfit]
    | some p => rw [hfit] at hflag; simp at hflag

/-- Witness for C9 at a one-county table with a real fit of scale 5. -/
theorem C9_doubling_time_witness :
    ∃ fr ∈ [({ fips := "06075",
               fit := some { norm := 2, t0 := 3, scale := 5 } } : Impute.FitRow)],
      fr.fips = "06075" ∧ ∃ p, fr.fit = some p ∧
        (some ((7 / 10 : ℚ) * 5) : Option ℚ) = some ((7 / 10 : ℚ) * p.scale) :=
  (C9_doubling_time_only_for_real_fits (7 / 10)
      [{ fips := "06075", fit := some { norm := 2, t0 := 3, scale := 5 } }]
      { fips := "06075", imputed_start_time := false,
        doubling_rate_days := some ((7 / 10) * 5) }
      (by with_unfolding_all decide)).1 rfl

/-- C3: for a county present in the region metadata but absent from the
hospital-capacity table, the left merge creates the hospital columns
holding NaN, so `.get(key, 0)` returns NaN (not the default 0) and all
three capacity constants of every sampled parameter set are NaN — not the
claimed zero beds and finite non-negative ventilator count. When the
hospital row is present, the constants are the finite merged values. -/
theorem C3_missing_hospital_row_gives_nan_capacities :
    (∀ pop ventMult : ℚ,
        ParamGen.sampledCapacityConstants
          (ParamGen.countyMetadataMerged pop none) ventMult =
          { beds_general := none, beds_ICU := none, ventilators := none })
  ∧ (∀ (pop ventMult : ℚ) (h : ParamGen.HospitalRow),
        ParamGen.sampledCapacityConstants
          (ParamGen.countyMetadataMerged pop (some h)) ventMult =
          { beds_general := some (h.num_licensed_beds - h.bed_utilization +
              h.potential_increase_in_bed_capac)
            beds_ICU := some h.num_icu_beds
            ventilators := some (h.num_icu_beds * ventMult) }) :=
  ⟨fun _ _ => by with_unfolding_all rfl,
   fun _ _ _ => by with_unfolding_all rfl⟩

/-- C1: in the per-compartment output for a capacity-bound compartment,
the tuple unpacking at line 247 assigns both components of
`_get_surge_window` to the key `'surge_start'`, so the produced entry has
NO `'surge_end'` key and its `'surge_start'` value is the surge-END list:
for the run `[1, 3, 3]` with capacity 2 on times `[0, 1, 2]`, the true
window is start 1 / end 2, yet the output stores `[2]` under
`'surge_start'` and nothing under `'surge_end'`. -/
theorem C1_surge_end_key_clobbered :
    c1Out.lookup "surge_end" = none
  ∧ c1Out.lookup "surge_start" = some (Runner.PyVal.optSeries [some 2])
  ∧ Runner.get_surge_window [c1Model] "HGen" = ([some 1], [some 2]) := by
  refine ⟨?_, ?_, ?_⟩ <;> with_unfolding_all rfl

/-- C2: `fit_county_initial_conditions` never reads its `t`, `y`
arguments — the optimiser is always given `self.exponential_loss`, the
loss over the FULL loaded series — so the `Fitted` stage's "windowed"
refit optimises the same objective as the coarse fit, for every model
function, optimiser and window. At the concrete state with
`t = [0, 1, 2]`, `y = [1, 2, 4]` and window `([1, 2], [2, 4])`, the
objective actually used evaluates to 7/2 at `c2Params` while the loss
restricted to the windowed subset evaluates to 6 there, so the stored
parameters do not minimise the windowed loss the claim describes. -/
theorem C2_windowed_refit_ignores_window :
    (∀ (f : Fitter.Params → ℚ → ℚ) (opt : (Fitter.Params → ℚ) → Fitter.Params)
        (st : Fitter.FitterState) (t1 y1 t2 y2 : List ℚ),
        Fitter.fit_county_initial_conditions f opt st t1 y1 =
          Fitter.fit_county_initial_conditions f opt st t2 y2)
  ∧ (∀ (f : Fitter.Params → ℚ → ℚ) (opt : (Fitter.Params → ℚ) → Fitter.Params)
        (st : Fitter.FitterState),
        (Fitter.fit f opt st).model_params =
          opt (Fitter.exponential_loss f st))
  ∧ Fitter.windowSlice c2State 1 = ([1, 2], [2, 4])
  ∧ Fitter.exponential_loss c2Model c2State c2Params = 7 / 2
  ∧ Fitter.windowedLoss c2Model [1, 2] [2, 4] c2Params = 6 :=
  ⟨fun _ _ _ _ _ _ _ => rfl, fun _ _ _ => rfl, by decide,
   by with_unfolding_all rfl, by with_unfolding_all rfl⟩

/-- C7: the constructor raises exactly when the region has fewer than
`min_days_required` observation days: with fewer days it returns the
`ValueError`, and with at least that many days (the minimum being at
least 1) it succeeds without raising. -/
theorem C7_min_days_gate (caseRows : List Fitter.CaseRow) (t0cc : ℚ)
    (daysBefore daysAfter minDays : ℕ) (hmin : 1 ≤ minDays) :
    (caseRows.length < minDays →
        ∃ e, Fitter.fitterInit caseRows t0cc daysBefore daysAfter minDays =
          .error e)
  ∧ (minDays ≤ caseRows.length →
        ∃ st, Fitter.fitterInit caseRows t0cc daysBefore daysAfter minDays =
          .ok st) := by
  constructor
  · intro h
    unfold Fitter.fitterInit
    rw [if_pos h]
    exact ⟨_, rfl⟩
  · intro h
    have hnot : ¬ caseRows.length < minDays := not_lt.mpr h
    cases caseRows with
    | nil => simp at h; omega
    | cons c cs =>
      unfold Fitter.fitterInit
      rw [if_neg hnot]
      exact ⟨_, rfl⟩

/-- Witness for C7: five observation rows with the default minimum of
five days construct successfully. -/
theorem C7_min_days_gate_witness :
    ∃ st, Fitter.fitterInit
        (List.replicate 5 { dayOffset := 0, count := 1, county := "a", state := "b" })
        1 2 1000 5 = .ok st :=
  (C7_min_days_gate _ 1 2 1000 5 (by norm_num)).2 (by simp)

/-- C5: at every fixed timestep the percentile band computed by the
aggregator (`np.percentile(value_stack, p, axis=0)`) is monotonically
non-decreasing in the requested percentile `p`, for every ensemble with
at least one run; and for a single-run ensemble the band at EVERY
percentile is exactly that run's series. -/
theorem C5_percentile_band_monotone_and_degenerate :
    (∀ (value_stack : List (List ℚ)) (p q : ℚ) (j : ℕ),
        value_stack ≠ [] → 0 ≤ p → p ≤ q → q ≤ 100 →
        (Runner.percentileAxis0 value_stack p).getD j 0 ≤
          (Runner.percentileAxis0 value_stack q).getD j 0)
  ∧ (∀ (row : List ℚ) (p : ℚ), Runner.percentileAxis0 [row] p = row) := by
  constructor
  · intro stack p q j hne hp hpq hq
    unfold Runner.percentileAxis0
    rw [getD_map_range, getD_map_range]
    by_cases hj : j < (stack.headD []).length
    · rw [if_pos hj, if_pos hj]
      refine npPercentile_mono ?_ hp hpq hq
      simpa using hne
    · rw [if_neg hj, if_neg hj]
  · intro row p
    unfold Runner.percentileAxis0
    calc (List.range (([row] : List (List ℚ)).headD []).length).map
          (fun j => npPercentile (([row] : List (List ℚ)).map
            (fun r => r.getD j 0)) p)
        = (List.range row.length).map (fun j => row.getD j 0) := by
          refine List.map_congr_left ?_
          intro j _
          exact npPercentile_singleton _ _
      _ = row := map_getD_range row

/-- Witness for C5 at the two-run stack `[[1, 2], [3, 4]]`, timestep 0,
percentiles 25 ≤ 75. -/
theorem C5_percentile_band_monotone_witness :
    (Runner.percentileAxis0 [[1, 2], [3, 4]] 25).getD 0 0 ≤
      (Runner.percentileAxis0 [[1, 2], [3, 4]] 75).getD 0 0 :=
  C5_percentile_band_monotone_and_degenerate.1 [[1, 2], [3, 4]] 25 75 0
    (by decide) (by norm_num) (by norm_num) (by norm_num)

/-- C6: the percentile band at timestep `j` depends only on column `j` of
the runs×timesteps stack (bands are computed independently per timestep,
not per-run-then-percentiled), and the 50th percentile of the 3-run stack
`[[1,2,3],[2,3,4],[3,4,5]]` is the per-timestep median `[2,3,4]`. -/
theorem C6_percentile_band_per_timestep :
    (∀ (A B : List (List ℚ)) (p : ℚ) (j : ℕ),
        A.map (fun r => r.getD j 0) = B.map (fun r => r.getD j 0) →
        (A.headD []).length = (B.headD []).length →
        (Runner.percentileAxis0 A p).getD j 0 =
          (Runner.percentileAxis0 B p).getD j 0)
  ∧ Runner.percentileAxis0 [[1, 2, 3], [2, 3, 4], [3, 4, 5]] 50 =
      [2, 3, 4] := by
  constructor
  · intro A B p j hcol hlen
    unfold Runner.percentileAxis0
    rw [getD_map_range, getD_map_range, hlen, hcol]
  · with_unfolding_all rfl

/-- Witness for C6: two stacks sharing column 0 (but differing elsewhere)
get the same band value at timestep 0. -/
theorem C6_percentile_band_per_timestep_witness :
    (Runner.percentileAxis0 [[1, 2], [5, 6]] 50).getD 0 0 =
      (Runner.percentileAxis0 [[1, 9], [5, 7]] 50).getD 0 0 :=
  C6_percentile_band_per_timestep.1 [[1, 2], [5, 6]] [[1, 9], [5, 7]] 50 0
    rfl rfl

/-! ## Helper lemmas for the surge-window characterisation -/

lemma surgeWindow_none {series t_list : List ℚ} {c : ℚ}
    (hall : ∀ i, (hi : i < series.length) → series.get ⟨i, hi⟩ ≤ c) :
    Runner.surgeWindowOne series t_list c = (none, none) := by
  unfold Runner.surgeWindowOne
  have h1 : series.findIdx? (fun v => decide (c < v)) = none := by
    rw [List.findIdx?_eq_none_iff]
    intro x hx
    obtain ⟨⟨i, hi⟩, rfl⟩ := List.mem_iff_get.mp hx
    simpa using not_lt.mpr (hall i hi)
  have h2 : series.reverse.findIdx? (fun v => decide (c < v)) = none := by
    rw [List.findIdx?_eq_none_iff]
    intro x hx
    rw [List.mem_reverse] at hx
    obtain ⟨⟨i, hi⟩, rfl⟩ := List.mem_iff_get.mp hx
    simpa using not_lt.mpr (hall i hi)
  rw [h1, h2]
  rfl

lemma surgeWindow_fst_first_exceed {series t_list : List ℚ} {c : ℚ}
    (hlen : series.length = t_list.length) {i : ℕ} (hi : i < series.length)
    (hex : c < series.get ⟨i, hi⟩)
    (hbefore : ∀ j, (hj : j < i) → series.get ⟨j, lt_trans hj hi⟩ ≤ c) :
    (Runner.surgeWindowOne series t_list c).1 =
      some (t_list.get ⟨i, hlen ▸ hi⟩) := by
  have hf : series.findIdx? (fun v => decide (c < v)) = some i := by
    rw [List.findIdx?_eq_some_iff_getElem]
    refine ⟨hi, by simpa using hex, ?_⟩
    intro j hj
    simpa using not_lt.mpr (hbefore j hj)
  show (series.findIdx? (fun v => decide (c < v))).map
      (fun k => t_list.getD k 0) = _
  rw [hf, Option.map_some']
  have hit : i < t_list.length := hlen ▸ hi
  rw [getD_in _ _ hit]
  rfl

lemma surgeWindow_snd_eq_fst_reverse (series t_list : List ℚ) (c : ℚ) :
    (Runner.surgeWindowOne series t_list c).2 =
      (Runner.surgeWindowOne series.reverse t_list.reverse c).1 := rfl

/-- C4: the surge window of one run is characterised by: surge-start is
the time-grid value at the EARLIEST index whose series value strictly
exceeds the run's capacity; surge-end is the time-grid value at the
LATEST such index; both are NaN (`none`) when the series never exceeds
the capacity; and when exactly one index exceeds it, start and end
coincide at that index's time value. -/
theorem C4_surge_window_bounds (series t_list : List ℚ) (c : ℚ)
    (hlen : series.length = t_list.length) :
    ((∀ i, (hi : i < series.length) → series.get ⟨i, hi⟩ ≤ c) →
        Runner.surgeWindowOne series t_list c = (none, none))
  ∧ (∀ i, (hi : i < series.length) → c < series.get ⟨i, hi⟩ →
        (∀ j, (hj : j < i) → series.get ⟨j, lt_trans hj hi⟩ ≤ c) →
        (Runner.surgeWindowOne series t_list c).1 =
          some (t_list.get ⟨i, hlen ▸ hi⟩))
  ∧ (∀ i, (hi : i < series.length) → c < series.get ⟨i, hi⟩ →
        (∀ j, (hj : j < series.length) → i < j → series.get ⟨j, hj⟩ ≤ c) →
        (Runner.surgeWindowOne series t_list c).2 =
          some (t_list.get ⟨i, hlen ▸ hi⟩))
  ∧ (∀ i, (hi : i < series.length) → c < series.get ⟨i, hi⟩ →
        (∀ j, (hj : j < series.length) → j ≠ i → series.get ⟨j, hj⟩ ≤ c) →
        Runner.surgeWindowOne series t_list c =
          (some (t_list.get ⟨i, hlen ▸ hi⟩),
           some (t_list.get ⟨i, hlen ▸ hi⟩))) := by
  have hsnd : ∀ i, (hi : i < series.length) → c < series.get ⟨i, hi⟩ →
      (∀ j, (hj : j < series.length) → i < j → series.get ⟨j, hj⟩ ≤ c) →
      (Runner.surgeWindowOne series t_list c).2 =
        some (t_list.get ⟨i, hlen ▸ hi⟩) := by
    intro i hi hex hafter
    rw [surgeWindow_snd_eq_fst_reverse]
    have hlen' : series.reverse.length = t_list.reverse.length := by
      simpa using hlen
    have hi' : series.length - 1 - i < series.reverse.length := by
      simp only [List.length_reverse]; omega
    have hval : series.reverse.get ⟨series.length - 1 - i, hi'⟩ =
        series.get ⟨i, hi⟩ := by
      simp only [List.get_eq_getElem, List.getElem_reverse]
      congr 1
      omega
    have hex' : c < series.reverse.get ⟨series.length - 1 - i, hi'⟩ := by
      rw [hval]; exact hex
    have hbefore' : ∀ j, (hj : j < series.length - 1 - i) →
        series.reverse.get ⟨j, lt_trans hj hi'⟩ ≤ c := by
      intro j hj
      have hjlen : j < series.reverse.length := lt_trans hj hi'
      have hjn : j < series.length := by simpa using hjlen
      have hidx : series.length - 1 - j < series.length := by omega
      have hrw : series.reverse.get ⟨j, hjlen⟩ =
          series.get ⟨series.length - 1 - j, hidx⟩ := by
        simp only [List.get_eq_getElem, List.getElem_reverse]
      rw [hrw]
      exact hafter _ hidx (by omega)
    have hmain := surgeWindow_fst_first_exceed hlen' hi' hex' hbefore'
    rw [hmain]
    congr 1
    simp only [List.get_eq_getElem, List.getElem_reverse]
    congr 1
    omega
  refine ⟨fun hall => surgeWindow_none hall,
          fun i hi hex hb => surgeWindow_fst_first_exceed hlen hi hex hb,
          hsnd, ?_⟩
  intro i hi hex honly
  have h1 := surgeWindow_fst_first_exceed hlen hi hex
    (fun j hj => honly j (lt_trans hj hi) (Nat.ne_of_lt hj))
  have h2 := hsnd i hi hex (fun j hj hij => honly j hj (Nat.ne_of_gt hij))
  exact Prod.ext h1 h2

/-- C8 counterexample: two runs whose compartment key sets DIFFER (the
second run has the extra compartment `B`) aggregate WITHOUT raising — the
key list is taken from the first run only, so the claim that any key-set
difference raises is false. -/
theorem C8_extra_key_does_not_raise :
    Runner.generate_compartment_arrays [c8Run0, c8Run1] =
      .ok [("A", [[1, 2], [3, 4]])] := by
  with_unfolding_all rfl

/-- C8 (amended): aggregation raises when some run is MISSING a
compartment key of the first run (`KeyError`), and when all runs have a
first-run key but with series of differing lengths (`ValueError` from
`np.vstack`); a run having EXTRA keys beyond the first run's key set does
not, by itself, raise. -/
theorem C8_raises_on_missing_key_or_length_mismatch
    (m0 : Runner.PyModel) (rest : List Runner.PyModel) :
    ((∃ k ∈ Runner.filteredKeys m0, ∃ m ∈ m0 :: rest,
        m.results.lookup k = none) →
      ∃ e, Runner.generate_compartment_arrays (m0 :: rest) = .error e)
  ∧ ((∃ k ∈ Runner.filteredKeys m0, ∃ m ∈ m0 :: rest, ∃ s s0 : List ℚ,
        m.results.lookup k = some s ∧ m0.results.lookup k = some s0 ∧
        s.length ≠ s0.length) →
      ∃ e, Runner.generate_compartment_arrays (m0 :: rest) = .error e) := by
  have missingCase : ∀ k ∈ Runner.filteredKeys m0, ∀ m ∈ m0 :: rest,
      m.results.lookup k = none →
      ∃ e, Runner.generate_compartment_arrays (m0 :: rest) = .error e := by
    intro k hk m hm hnone
    have h1 : Runner.lookupCompartment k m = .error "KeyError" := by
      unfold Runner.lookupCompartment
      rw [hnone]
    obtain ⟨e, he⟩ := mapM_except_error_of_mem _ hm h1
    have h2 : Runner.stackCompartment (m0 :: rest) k = .error e := by
      unfold Runner.stackCompartment
      rw [he]
    obtain ⟨e', he'⟩ := mapM_except_error_of_mem _ hk h2
    exact ⟨e', he'⟩
  constructor
  · rintro ⟨k, hk, m, hm, hnone⟩
    exact missingCase k hk m hm hnone
  · rintro ⟨k, hk, m, hm, s, s0, hs, hs0, hne⟩
    by_cases hall : ∀ m' ∈ m0 :: rest, (m'.results.lookup k).isSome
    · have hmapM : (m0 :: rest).mapM (Runner.lookupCompartment k) =
          .ok ((m0 :: rest).map (fun m' => (m'.results.lookup k).getD [])) := by
        apply mapM_except_ok_map
        intro a ha
        obtain ⟨s', hs'⟩ := Option.isSome_iff_exists.mp (hall a ha)
        unfold Runner.lookupCompartment
        rw [hs']
        rfl
      have hvm0 : (fun m' : Runner.PyModel =>
          (m'.results.lookup k).getD []) m0 = s0 := by simp [hs0]
      have hvst : Runner.npVstack ((m0 :: rest).map
          (fun m' => (m'.results.lookup k).getD [])) =
          .error "ValueError: all input array dimensions must match" := by
        rw [show ((m0 :: rest).map (fun m' => (m'.results.lookup k).getD [])) =
            ((m0.results.lookup k).getD [] ::
              rest.map (fun m' => (m'.results.lookup k).getD [])) from rfl]
        rw [show ((m0.results.lookup k).getD [] : List ℚ) = s0 by rw [hs0]; rfl]
        unfold Runner.npVstack
        rcases List.mem_cons.mp hm with rfl | hmrest
        · rw [hs0] at hs
          injection hs with h
          exact absurd (by rw [h]) hne
        · have hsmem : s ∈ rest.map (fun m' => (m'.results.lookup k).getD []) := by
            have : (fun m' : Runner.PyModel =>
                (m'.results.lookup k).getD []) m = s := by simp [hs]
            rw [← this]
            exact List.mem_map_of_mem _ hmrest
          have hfalse : ¬ ((rest.map (fun m' => (m'.results.lookup k).getD [])).all
              (fun x => x.length == s0.length) = true) := by
            intro hta
            have h := List.all_eq_true.mp hta s hsmem
            simp only [beq_iff_eq] at h
            exact hne h
          dsimp only
          rw [if_neg hfalse]
      have hstack : Runner.stackCompartment (m0 :: rest) k =
          .error "ValueError: all input array dimensions must match" := by
        unfold Runner.stackCompartment
        rw [hmapM]
        show (match Runner.npVstack ((m0 :: rest).map
            (fun m' => (m'.results.lookup k).getD [])) with
          | .error e => (Except.error e : Except String (String × List (List ℚ)))
          | .ok stacked => .ok (k, stacked)) = _
        rw [hvst]
      obtain ⟨e', he'⟩ := mapM_except_error_of_mem _ hk hstack
      exact ⟨e', he'⟩
    · push_neg at hall
      obtain ⟨m', hm', hnone⟩ := hall
      exact missingCase k hk m' hm'
        (Option.not_isSome_iff_eq_none.mp hnone)

/-- Witness for C8 (amended): a two-run ensemble whose second run is
missing compartment `A` raises. -/
theorem C8_raises_witness :
    ∃ e, Runner.generate_compartment_arrays
      [c8Run0,
       { results := [("B", [5, 6])], t_list := [],
         beds_general := 0, beds_ICU := 0, ventilators := 0 }] = .error e :=
  (C8_raises_on_missing_key_or_length_mismatch c8Run0
      [{ results := [("B", [5, 6])], t_list := [],
         beds_general := 0, beds_ICU := 0, ventilators := 0 }]).1
    ⟨"A", by with_unfolding_all decide,
     { results := [("B", [5, 6])], t_list := [],
       beds_general := 0, beds_ICU := 0, ventilators := 0 },
     by simp, by with_unfolding_all rfl⟩

/-- Witness for C4: the run `[1, 3, 1]` with capacity 2 on times
`[0, 1, 2]` exceeds capacity at exactly timestep 1, so surge-start and
surge-end both equal time 1 (the spec's own scenario). -/
theorem C4_surge_window_bounds_witness :
    Runner.surgeWindowOne [1, 3, 1] [0, 1, 2] 2 = (some 1, some 1) :=
  (C4_surge_window_bounds [1, 3, 1] [0, 1, 2] 2 rfl).2.2.2 1
    (by norm_num) (by norm_num)
    (by
      intro j hj hne
      have hj3 : j < 3 := by simpa using hj
      interval_cases j
      · show (1 : ℚ) ≤ 2; norm_num
      · exact absurd rfl hne
      · show (1 : ℚ) ≤ 2; norm_num)

end PySeir
